import Mathlib

/-!
Shallow embedding of brpc's SocketMap (src/brpc/socket_map.h): a
reference-counted registry mapping checksum-reduced endpoint identities to
shared sockets, with idle/deferred reclamation by a background sweeper.
Structures and inline functions are translated from the header; methods whose
definitions live in socket_map.cpp (absent from this tree) are modelled from
the specification document, as marked in their doc comments.
-/

namespace brpc

/-- Remote endpoint address (butil::EndPoint): an ip and a port. -/
structure EndPoint where
  ip : Nat
  port : Nat
deriving DecidableEq

/-- Socket handle (SocketId from brpc/socket_id.h), an opaque identifier. -/
abbrev SocketId := Nat

/-- The fields that uniquely define a Socket (socket_map.h lines 35-45).
ChannelSSLOptions is carried as an opaque code, the Authenticator pointer as
an optional code, none standing for NULL. -/
structure SocketMapKey where
  peer : EndPoint
  ssl_options : Nat
  auth : Option Nat
deriving DecidableEq

/-- Modelled from the spec: ComputeSocketMapKeyChecksum is declared at
socket_map.h line 48 but defined in socket_map.cpp, which is not in the tree.
Per spec §4.1 it is a deterministic 128-bit digest covering the security
configuration and the authenticator identity; the digest is the 16 bytes of a
pairing of the two codes. -/
def ComputeSocketMapKeyChecksum (key : SocketMapKey) : Fin 16 → Nat :=
  fun i =>
    Nat.pair key.ssl_options
      (match key.auth with
       | none => 0
       | some a => a + 1) / 256 ^ (i : Nat) % 256

/-- SocketMap::SocketMapKeyChecksum (socket_map.h lines 140-153): the peer is
kept unreduced next to the 16 digest bytes. -/
structure SocketMapKeyChecksum where
  peer : EndPoint
  checksum : Fin 16 → Nat

/-- The constructor at socket_map.h lines 141-144: copy the peer and fill the
digest with ComputeSocketMapKeyChecksum. -/
def SocketMapKeyChecksum.ofKey (key : SocketMapKey) : SocketMapKeyChecksum :=
  { peer := key.peer, checksum := ComputeSocketMapKeyChecksum key }

/-- C's memcmp on byte lists: sign of the first differing byte, 0 when no byte
differs over the compared length. -/
def memcmpList : List Nat → List Nat → Int
  | a :: as, b :: bs =>
    if a < b then -1 else if b < a then 1 else memcmpList as bs
  | _, _ => 0

/-- The 16 digest bytes of a checksum, as a list. -/
def cksumBytes (a : SocketMapKeyChecksum) : List Nat :=
  (List.finRange 16).map a.checksum

/-- operator== at socket_map.h lines 149-152: peer equality together with
memcmp(this->checksum, rhs.checksum, 16) == 0. -/
def SocketMapKeyChecksum.beq (a b : SocketMapKeyChecksum) : Bool :=
  decide (a.peer = b.peer) && decide (memcmpList (cksumBytes a) (cksumBytes b) = 0)

/-- Checksum2Hash (socket_map.h lines 155-163): memcpy of the first
sizeof(std::size_t) = 8 digest bytes into the hash word, read little-endian,
reduced to the 64-bit machine width. -/
def Checksum2Hash (k : SocketMapKeyChecksum) : Nat :=
  ((List.finRange 8).map
      (fun i => k.checksum (Fin.castLE (by omega) i) * 256 ^ (i : Nat))).sum % 2 ^ 64

/-- SocketMap::SingleConnection (socket_map.h lines 130-134); no_ref_us is the
idle timestamp, none standing for "never" while the entry is referenced. -/
structure SingleConnection where
  ref_count : Int
  socket : SocketId
  no_ref_us : Option Int
deriving DecidableEq

/-- The FlatMap<SocketMapKeyChecksum, SingleConnection, Checksum2Hash> at
socket_map.h lines 167-168, as an association list whose keys are unique. -/
abbrev Map := List (SocketMapKeyChecksum × SingleConnection)

/-- FlatMap::seek: the first entry whose key compares equal under operator==. -/
def mapSeek : Map → SocketMapKeyChecksum → Option SingleConnection
  | [], _ => none
  | e :: t, k => if SocketMapKeyChecksum.beq e.1 k then some e.2 else mapSeek t k

/-- In-place mutation of the entry stored under a key. -/
def mapUpdate (m : Map) (k : SocketMapKeyChecksum)
    (f : SingleConnection → SingleConnection) : Map :=
  m.map (fun e => if SocketMapKeyChecksum.beq e.1 k then (e.1, f e.2) else e)

/-- FlatMap::erase of a key. -/
def mapErase (m : Map) (k : SocketMapKeyChecksum) : Map :=
  m.filter (fun e => !SocketMapKeyChecksum.beq e.1 k)

/-- FlatMap invariant: no two stored entries have keys comparing equal under
operator==. -/
def KeysUnique (m : Map) : Prop :=
  m.Pairwise (fun a b => SocketMapKeyChecksum.beq a.1 b.1 = false)

instance (m : Map) : Decidable (KeysUnique m) := by
  unfold KeysUnique
  infer_instance

/-- Registry state: the map plus two observation fields — how many times the
SocketCreator was invoked, and which sockets have been closed. -/
structure SocketMapState where
  map : Map
  creations : Nat
  closed : List SocketId

/-- Result of SocketMap::Insert: the return code, the SocketId written to the
out parameter (none when no handle is produced), and the registry afterwards. -/
structure InsertResult where
  retcode : Int
  id : Option SocketId
  state : SocketMapState

/-- Modelled from the spec: SocketMap::Insert is declared at socket_map.h line
113; its definition (socket_map.cpp) is not in the tree. Per spec §4.2: under
the lock, look the checksum up; if found, increment ref_count, clear the idle
timestamp and return the stored handle with code 0; if absent, ask the
SocketCreator (creator, fed the running creation count) for a socket — on
failure return -1 with the registry unchanged, on success register the socket
under the checksum with ref_count 1 and return its handle. -/
def SocketMap.Insert (creator : Nat → Option SocketId) (st : SocketMapState)
    (key : SocketMapKey) : InsertResult :=
  match mapSeek st.map (SocketMapKeyChecksum.ofKey key) with
  | some sc =>
    { retcode := 0, id := some sc.socket,
      state := { st with
        map := mapUpdate st.map (SocketMapKeyChecksum.ofKey key)
          (fun s => { s with ref_count := s.ref_count + 1, no_ref_us := none }) } }
  | none =>
    match creator st.creations with
    | none =>
      { retcode := -1, id := none,
        state := { st with creations := st.creations + 1 } }
    | some sid =>
      { retcode := 0, id := some sid,
        state := { st with
          map := (SocketMapKeyChecksum.ofKey key,
                  { ref_count := 1, socket := sid, no_ref_us := none }) :: st.map,
          creations := st.creations + 1 } }

/-- Modelled from the spec: SocketMap::Find (socket_map.h line 115, cpp absent),
spec §4.3: a pure lookup, returning (return code, handle, registry after). -/
def SocketMap.Find (st : SocketMapState) (key : SocketMapKey) :
    Int × Option SocketId × SocketMapState :=
  match mapSeek st.map (SocketMapKeyChecksum.ofKey key) with
  | some sc => (0, some sc.socket, st)
  | none => (-1, none, st)

/-- Modelled from the spec: SocketMap::RemoveInternal (socket_map.h lines
121-122, cpp absent), spec §4.4: under the lock look the checksum up; a
missing entry or a handle differing from the expected one is a stale release
and a no-op; otherwise decrement ref_count, and when it reaches zero either
close and erase at once (defer-close threshold ≤ 0) or stamp the idle time and
keep the entry. -/
def SocketMap.RemoveInternal (deferClose now : Int) (st : SocketMapState)
    (ck : SocketMapKeyChecksum) (expectedId : SocketId) : SocketMapState :=
  match mapSeek st.map ck with
  | none => st
  | some sc =>
    if sc.socket = expectedId then
      if sc.ref_count - 1 = 0 then
        if deferClose ≤ 0 then
          { st with map := mapErase st.map ck, closed := sc.socket :: st.closed }
        else
          { st with
            map := mapUpdate st.map ck
              (fun s => { s with ref_count := s.ref_count - 1, no_ref_us := some now }) }
      else
        { st with
          map := mapUpdate st.map ck
            (fun s => { s with ref_count := s.ref_count - 1 }) }
    else st

/-- SocketMap::Remove (socket_map.h line 114): RemoveInternal on the key's
checksum with the caller's expected handle. -/
def SocketMap.Remove (deferClose now : Int) (st : SocketMapState)
    (key : SocketMapKey) (expectedId : SocketId) : SocketMapState :=
  SocketMap.RemoveInternal deferClose now st (SocketMapKeyChecksum.ofKey key) expectedId

/-- An entry eligible for reclamation in a sweep at time now (spec §4.5 steps
1-2): zero references, an idle stamp whose age exceeds the idle timeout, and
past the defer-close grace when one is configured. -/
def orphanEligible (now idleTimeout deferClose : Int) (sc : SingleConnection) : Bool :=
  decide (sc.ref_count = 0) &&
    (match sc.no_ref_us with
     | none => false
     | some ts =>
       decide (idleTimeout < now - ts) &&
         (decide (deferClose ≤ 0) || decide (deferClose ≤ now - ts)))

/-- Modelled from the spec: SocketMap::ListOrphans (socket_map.h line 123, cpp
absent), spec §4.5 step 1: snapshot the keys of eligible entries; a
non-positive idle timeout disables idle-based reclamation entirely. -/
def SocketMap.ListOrphans (now idleTimeout deferClose : Int) (m : Map) :
    List SocketMapKeyChecksum :=
  if idleTimeout ≤ 0 then []
  else (m.filter (fun e => orphanEligible now idleTimeout deferClose e.2)).map
    (fun e => e.1)

/-- Modelled from the spec: destruction of one snapshotted candidate by
SocketMap::WatchConnections (spec §4.5 step 3): re-validate under the lock that
its reference count is still zero; close and erase it only then, skipping the
entry when it has been reused since the snapshot. -/
def SocketMap.CloseOne (st : SocketMapState) (c : SocketMapKeyChecksum) :
    SocketMapState :=
  match mapSeek st.map c with
  | some sc =>
    if sc.ref_count = 0 then
      { st with map := mapErase st.map c, closed := sc.socket :: st.closed }
    else st
  | none => st

/-- Modelled from the spec: the destruction phase of SocketMap::WatchConnections
(spec §4.5 step 3), over the whole snapshot. -/
def SocketMap.CloseCandidates :
    List SocketMapKeyChecksum → SocketMapState → SocketMapState
  | [], st => st
  | c :: rest, st => SocketMap.CloseCandidates rest (SocketMap.CloseOne st c)

/-- Modelled from the spec: one cycle of SocketMap::WatchConnections
(socket_map.h line 124, cpp absent), spec §4.5: snapshot the orphans, then
close and erase them with re-validation. -/
def SocketMap.WatchConnectionsCycle (now idleTimeout deferClose : Int)
    (st : SocketMapState) : SocketMapState :=
  SocketMap.CloseCandidates (SocketMap.ListOrphans now idleTimeout deferClose st.map) st

/-- A mutex-serialized sequence of Insert calls (spec §5: all structural access
is serialized by the registry mutex), returning each caller's (return code,
handle) in order together with the final registry. -/
def insertSeq (creator : Nat → Option SocketId) (st : SocketMapState) :
    List SocketMapKey → List (Int × Option SocketId) × SocketMapState
  | [] => ([], st)
  | k :: ks =>
    let r := SocketMap.Insert creator st k
    let p := insertSeq creator r.state ks
    ((r.retcode, r.id) :: p.1, p.2)

/-! ### Basic lemmas about key equality and the map operations -/

lemma memcmpList_eq_zero_iff :
    ∀ xs ys : List Nat, xs.length = ys.length → (memcmpList xs ys = 0 ↔ xs = ys) := by
  intro xs
  induction xs with
  | nil =>
    intro ys h
    cases ys with
    | nil => simp [memcmpList]
    | cons y ys => simp at h
  | cons x xs ih =>
    intro ys h
    cases ys with
    | nil => simp at h
    | cons y ys =>
      simp only [memcmpList]
      by_cases hlt : x < y
      · rw [if_pos hlt]
        constructor
        · intro habs; exact absurd habs (by decide)
        · intro habs
          have := List.cons.inj habs
          omega
      · rw [if_neg hlt]
        by_cases hgt : y < x
        · rw [if_pos hgt]
          constructor
          · intro habs; exact absurd habs (by decide)
          · intro habs
            have := List.cons.inj habs
            omega
        · rw [if_neg hgt]
          have hxy : x = y := by omega
          subst hxy
          rw [ih ys (by simpa using h)]
          simp

lemma ckBeq_iff (a b : SocketMapKeyChecksum) :
    SocketMapKeyChecksum.beq a b = true ↔
      (a.peer = b.peer ∧ ∀ i : Fin 16, a.checksum i = b.checksum i) := by
  unfold SocketMapKeyChecksum.beq
  rw [Bool.and_eq_true, decide_eq_true_eq, decide_eq_true_eq]
  rw [memcmpList_eq_zero_iff _ _ (by simp [cksumBytes])]
  unfold cksumBytes
  rw [List.map_inj_left]
  constructor
  · rintro ⟨hp, hb⟩
    exact ⟨hp, fun i => hb i (List.mem_finRange i)⟩
  · rintro ⟨hp, hb⟩
    exact ⟨hp, fun i _ => hb i⟩

lemma ckBeq_refl (a : SocketMapKeyChecksum) : SocketMapKeyChecksum.beq a a = true :=
  (ckBeq_iff a a).mpr ⟨rfl, fun _ => rfl⟩

lemma ckBeq_symm {a b : SocketMapKeyChecksum}
    (h : SocketMapKeyChecksum.beq a b = true) : SocketMapKeyChecksum.beq b a = true := by
  rcases (ckBeq_iff a b).mp h with ⟨hp, hb⟩
  exact (ckBeq_iff b a).mpr ⟨hp.symm, fun i => (hb i).symm⟩

lemma ckBeq_trans {a b c : SocketMapKeyChecksum}
    (hab : SocketMapKeyChecksum.beq a b = true)
    (hbc : SocketMapKeyChecksum.beq b c = true) :
    SocketMapKeyChecksum.beq a c = true := by
  rcases (ckBeq_iff a b).mp hab with ⟨hp1, hb1⟩
  rcases (ckBeq_iff b c).mp hbc with ⟨hp2, hb2⟩
  exact (ckBeq_iff a c).mpr ⟨hp1.trans hp2, fun i => (hb1 i).trans (hb2 i)⟩

lemma ckBeq_true_of_ne_false {a b : SocketMapKeyChecksum}
    (h : SocketMapKeyChecksum.beq a b ≠ false) :
    SocketMapKeyChecksum.beq a b = true := by
  revert h
  cases SocketMapKeyChecksum.beq a b <;> simp

lemma ckBeq_false_of_ne_true {a b : SocketMapKeyChecksum}
    (h : ¬ SocketMapKeyChecksum.beq a b = true) :
    SocketMapKeyChecksum.beq a b = false := by
  revert h
  cases SocketMapKeyChecksum.beq a b <;> simp

lemma mapSeek_cons (k0 : SocketMapKeyChecksum) (v : SingleConnection) (m : Map)
    (k : SocketMapKeyChecksum) :
    mapSeek ((k0, v) :: m) k =
      if SocketMapKeyChecksum.beq k0 k then some v else mapSeek m k := rfl

lemma mapUpdate_cons (k0 : SocketMapKeyChecksum) (v : SingleConnection) (m : Map)
    (k : SocketMapKeyChecksum) (f : SingleConnection → SingleConnection) :
    mapUpdate ((k0, v) :: m) k f =
      (if SocketMapKeyChecksum.beq k0 k then (k0, f v) else (k0, v)) :: mapUpdate m k f := by
  simp only [mapUpdate, List.map_cons]

lemma mapErase_cons (k0 : SocketMapKeyChecksum) (v : SingleConnection) (m : Map)
    (k : SocketMapKeyChecksum) :
    mapErase ((k0, v) :: m) k =
      if SocketMapKeyChecksum.beq k0 k then mapErase m k
      else (k0, v) :: mapErase m k := by
  simp only [mapErase, List.filter_cons]
  cases hb : SocketMapKeyChecksum.beq k0 k <;> simp

lemma mapSeek_update (m : Map) (k : SocketMapKeyChecksum)
    (f : SingleConnection → SingleConnection) :
    mapSeek (mapUpdate m k f) k = (mapSeek m k).map f := by
  induction m with
  | nil => rfl
  | cons e t ih =>
    obtain ⟨k0, v⟩ := e
    rw [mapUpdate_cons]
    by_cases hb : SocketMapKeyChecksum.beq k0 k = true
    · rw [if_pos hb, mapSeek_cons, mapSeek_cons, if_pos hb, if_pos hb]
      rfl
    · rw [if_neg hb, mapSeek_cons, mapSeek_cons, if_neg hb, if_neg hb]
      exact ih

lemma mapSeek_erase_rel {k0 k : SocketMapKeyChecksum}
    (h : SocketMapKeyChecksum.beq k0 k = true) (m : Map) :
    mapSeek (mapErase m k0) k = none := by
  induction m with
  | nil => rfl
  | cons e t ih =>
    obtain ⟨k1, v⟩ := e
    rw [mapErase_cons]
    by_cases hk : SocketMapKeyChecksum.beq k1 k0 = true
    · rw [if_pos hk]
      exact ih
    · rw [if_neg hk]
      have hek : ¬ SocketMapKeyChecksum.beq k1 k = true := by
        intro hx
        exact hk (ckBeq_trans hx (ckBeq_symm h))
      rw [mapSeek_cons, if_neg hek]
      exact ih

lemma mapSeek_erase_ne {k0 k : SocketMapKeyChecksum}
    (h : SocketMapKeyChecksum.beq k0 k = false) (m : Map) :
    mapSeek (mapErase m k0) k = mapSeek m k := by
  induction m with
  | nil => rfl
  | cons e t ih =>
    obtain ⟨k1, v⟩ := e
    rw [mapErase_cons]
    by_cases hk : SocketMapKeyChecksum.beq k1 k0 = true
    · have hk1k : ¬ SocketMapKeyChecksum.beq k1 k = true := by
        intro hx
        have : SocketMapKeyChecksum.beq k0 k = true :=
          ckBeq_trans (ckBeq_symm hk) hx
        rw [h] at this
        exact Bool.false_ne_true this
      rw [if_pos hk, mapSeek_cons, if_neg hk1k]
      exact ih
    · rw [if_neg hk, mapSeek_cons, mapSeek_cons]
      by_cases hm : SocketMapKeyChecksum.beq k1 k = true
      · rw [if_pos hm, if_pos hm]
      · rw [if_neg hm, if_neg hm]
        exact ih

lemma mapSeek_respects {k1 k2 : SocketMapKeyChecksum}
    (h : SocketMapKeyChecksum.beq k1 k2 = true) (m : Map) :
    mapSeek m k1 = mapSeek m k2 := by
  induction m with
  | nil => rfl
  | cons e t ih =>
    obtain ⟨k0, v⟩ := e
    rw [mapSeek_cons, mapSeek_cons]
    by_cases hb : SocketMapKeyChecksum.beq k0 k1 = true
    · rw [if_pos hb, if_pos (ckBeq_trans hb h)]
    · have hb2 : ¬ SocketMapKeyChecksum.beq k0 k2 = true := by
        intro hx
        exact hb (ckBeq_trans hx (ckBeq_symm h))
      rw [if_neg hb, if_neg hb2]
      exact ih

lemma mapSeek_erase_none {k0 k : SocketMapKeyChecksum} (m : Map)
    (hm : mapSeek m k = none) : mapSeek (mapErase m k0) k = none := by
  by_cases hb : SocketMapKeyChecksum.beq k0 k = true
  · exact mapSeek_erase_rel hb m
  · rw [mapSeek_erase_ne (ckBeq_false_of_ne_true hb) m]
    exact hm

lemma mapSeek_of_mem_unique {m : Map} {k : SocketMapKeyChecksum}
    {sc : SingleConnection} (hu : KeysUnique m) (hmem : (k, sc) ∈ m) :
    mapSeek m k = some sc := by
  induction m with
  | nil => cases hmem
  | cons e t ih =>
    obtain ⟨k0, v⟩ := e
    rw [KeysUnique, List.pairwise_cons] at hu
    obtain ⟨hhead, htail⟩ := hu
    rcases List.mem_cons.mp hmem with heq | hmem'
    · obtain ⟨hk, hv⟩ := Prod.mk.injEq k sc k0 v ▸ heq
      subst hk
      subst hv
      rw [mapSeek_cons, if_pos (ckBeq_refl k)]
    · have hne : SocketMapKeyChecksum.beq k0 k = false := hhead (k, sc) hmem'
      rw [mapSeek_cons, if_neg (by simp [hne])]
      exact ih htail hmem'

lemma mem_value_unique {m : Map} {k1 k2 : SocketMapKeyChecksum}
    {s1 s2 : SingleConnection} (hu : KeysUnique m) (h1 : (k1, s1) ∈ m)
    (h2 : (k2, s2) ∈ m) (h : SocketMapKeyChecksum.beq k1 k2 = true) : s1 = s2 := by
  have e1 := mapSeek_of_mem_unique hu h1
  have e2 := mapSeek_of_mem_unique hu h2
  rw [mapSeek_respects h, e2] at e1
  exact (Option.some.inj e1).symm

lemma insert_found_eq {creator : Nat → Option SocketId} {st : SocketMapState}
    {key : SocketMapKey} {sc : SingleConnection}
    (hseek : mapSeek st.map (SocketMapKeyChecksum.ofKey key) = some sc) :
    SocketMap.Insert creator st key =
      { retcode := 0, id := some sc.socket,
        state := { st with
          map := mapUpdate st.map (SocketMapKeyChecksum.ofKey key)
            (fun s => { s with ref_count := s.ref_count + 1, no_ref_us := none }) } } := by
  unfold SocketMap.Insert
  rw [hseek]

lemma insert_fail_eq {creator : Nat → Option SocketId} {st : SocketMapState}
    {key : SocketMapKey}
    (hseek : mapSeek st.map (SocketMapKeyChecksum.ofKey key) = none)
    (hfail : creator st.creations = none) :
    SocketMap.Insert creator st key =
      { retcode := -1, id := none,
        state := { st with creations := st.creations + 1 } } := by
  unfold SocketMap.Insert
  rw [hseek, hfail]

lemma insert_create_eq {creator : Nat → Option SocketId} {st : SocketMapState}
    {key : SocketMapKey} {sid : SocketId}
    (hseek : mapSeek st.map (SocketMapKeyChecksum.ofKey key) = none)
    (hcreate : creator st.creations = some sid) :
    SocketMap.Insert creator st key =
      { retcode := 0, id := some sid,
        state := { st with
          map := (SocketMapKeyChecksum.ofKey key,
                  { ref_count := 1, socket := sid, no_ref_us := none }) :: st.map,
          creations := st.creations + 1 } } := by
  unfold SocketMap.Insert
  rw [hseek, hcreate]

lemma removeInternal_eq {st : SocketMapState} {ck : SocketMapKeyChecksum}
    {sc : SingleConnection} (deferClose now : Int) (expectedId : SocketId)
    (hseek : mapSeek st.map ck = some sc) :
    SocketMap.RemoveInternal deferClose now st ck expectedId =
      if sc.socket = expectedId then
        if sc.ref_count - 1 = 0 then
          if deferClose ≤ 0 then
            { st with map := mapErase st.map ck, closed := sc.socket :: st.closed }
          else
            { st with
              map := mapUpdate st.map ck
                (fun s => { s with ref_count := s.ref_count - 1, no_ref_us := some now }) }
        else
          { st with
            map := mapUpdate st.map ck
              (fun s => { s with ref_count := s.ref_count - 1 }) }
      else st := by
  unfold SocketMap.RemoveInternal
  rw [hseek]

lemma closeOne_none {st : SocketMapState} {c : SocketMapKeyChecksum}
    (hc : mapSeek st.map c = none) : SocketMap.CloseOne st c = st := by
  unfold SocketMap.CloseOne
  rw [hc]

lemma closeOne_nonzero {st : SocketMapState} {c : SocketMapKeyChecksum}
    {sc : SingleConnection} (hc : mapSeek st.map c = some sc)
    (hr : ¬ sc.ref_count = 0) : SocketMap.CloseOne st c = st := by
  unfold SocketMap.CloseOne
  rw [hc]
  simp [hr]

lemma closeOne_zero {st : SocketMapState} {c : SocketMapKeyChecksum}
    {sc : SingleConnection} (hc : mapSeek st.map c = some sc)
    (hr : sc.ref_count = 0) :
    SocketMap.CloseOne st c =
      { st with map := mapErase st.map c, closed := sc.socket :: st.closed } := by
  unfold SocketMap.CloseOne
  rw [hc]
  simp [hr]

lemma closeCands_closed_mono (cands : List SocketMapKeyChecksum) :
    ∀ (st : SocketMapState) (x : SocketId),
      x ∈ st.closed → x ∈ (SocketMap.CloseCandidates cands st).closed := by
  induction cands with
  | nil => intro st x h; exact h
  | cons c rest ih =>
    intro st x h
    simp only [SocketMap.CloseCandidates]
    apply ih
    cases hc : mapSeek st.map c with
    | none => rw [closeOne_none hc]; exact h
    | some sc =>
      by_cases hr : sc.ref_count = 0
      · rw [closeOne_zero hc hr]
        exact List.mem_cons_of_mem _ h
      · rw [closeOne_nonzero hc hr]
        exact h

lemma closeOne_seek_none {st : SocketMapState} {c k : SocketMapKeyChecksum}
    (h : mapSeek st.map k = none) : mapSeek (SocketMap.CloseOne st c).map k = none := by
  cases hc : mapSeek st.map c with
  | none => rw [closeOne_none hc]; exact h
  | some sc =>
    by_cases hr : sc.ref_count = 0
    · rw [closeOne_zero hc hr]
      exact mapSeek_erase_none st.map h
    · rw [closeOne_nonzero hc hr]
      exact h

lemma closeCands_seek_none (cands : List SocketMapKeyChecksum) :
    ∀ (st : SocketMapState) (k : SocketMapKeyChecksum),
      mapSeek st.map k = none →
      mapSeek (SocketMap.CloseCandidates cands st).map k = none := by
  induction cands with
  | nil => intro st k h; exact h
  | cons c rest ih =>
    intro st k h
    simp only [SocketMap.CloseCandidates]
    exact ih _ k (closeOne_seek_none h)

lemma closeOne_seek_unrelated {st : SocketMapState} {c k : SocketMapKeyChecksum}
    (hrel : SocketMapKeyChecksum.beq c k = false) :
    mapSeek (SocketMap.CloseOne st c).map k = mapSeek st.map k := by
  cases hc : mapSeek st.map c with
  | none => rw [closeOne_none hc]
  | some sc =>
    by_cases hr : sc.ref_count = 0
    · rw [closeOne_zero hc hr]
      exact mapSeek_erase_ne hrel st.map
    · rw [closeOne_nonzero hc hr]

lemma closeCands_seek_unrelated (cands : List SocketMapKeyChecksum) :
    ∀ (st : SocketMapState) (k : SocketMapKeyChecksum),
      (∀ c ∈ cands, SocketMapKeyChecksum.beq c k = false) →
      mapSeek (SocketMap.CloseCandidates cands st).map k = mapSeek st.map k := by
  induction cands with
  | nil => intro st k _; rfl
  | cons c rest ih =>
    intro st k h
    simp only [SocketMap.CloseCandidates]
    rw [ih _ k (fun c' hc' => h c' (List.mem_cons_of_mem _ hc'))]
    exact closeOne_seek_unrelated (h c (List.mem_cons_self _ _))

lemma closeCands_erases (cands : List SocketMapKeyChecksum) :
    ∀ (st : SocketMapState) (k : SocketMapKeyChecksum) (sc : SingleConnection),
      k ∈ cands → mapSeek st.map k = some sc → sc.ref_count = 0 →
      mapSeek (SocketMap.CloseCandidates cands st).map k = none ∧
        sc.socket ∈ (SocketMap.CloseCandidates cands st).closed := by
  induction cands with
  | nil => intro st k sc hk; cases hk
  | cons c rest ih =>
    intro st k sc hk hseek href
    simp only [SocketMap.CloseCandidates]
    rcases List.mem_cons.mp hk with rfl | hk'
    · rw [closeOne_zero hseek href]
      constructor
      · exact closeCands_seek_none rest _ k (mapSeek_erase_rel (ckBeq_refl k) st.map)
      · exact closeCands_closed_mono rest _ sc.socket (List.mem_cons_self _ _)
    · cases hc : mapSeek st.map c with
      | none =>
        rw [closeOne_none hc]
        exact ih st k sc hk' hseek href
      | some sc' =>
        by_cases hr : sc'.ref_count = 0
        · by_cases hrel : SocketMapKeyChecksum.beq c k = true
          · have hsc : sc' = sc := by
              have h2 := mapSeek_respects hrel st.map
              rw [hc, hseek] at h2
              exact Option.some.inj h2
            rw [closeOne_zero hc hr]
            constructor
            · exact closeCands_seek_none rest _ k (mapSeek_erase_rel hrel st.map)
            · refine closeCands_closed_mono rest _ sc.socket ?_
              rw [hsc]
              exact List.mem_cons_self _ _
          · have hrel' := ckBeq_false_of_ne_true hrel
            rw [closeOne_zero hc hr]
            apply ih
            · exact hk'
            · show mapSeek (mapErase st.map c) k = some sc
              rw [mapSeek_erase_ne hrel' st.map]
              exact hseek
            · exact href
        · rw [closeOne_nonzero hc hr]
          exact ih st k sc hk' hseek href

lemma insertSeq_found (creator : Nat → Option SocketId) (key : SocketMapKey)
    (hid : SocketId) :
    ∀ (keys : List SocketMapKey) (st : SocketMapState) (sc : SingleConnection),
      (∀ k ∈ keys, k = key) →
      mapSeek st.map (SocketMapKeyChecksum.ofKey key) = some sc →
      sc.socket = hid →
      (insertSeq creator st keys).1 = List.replicate keys.length ((0 : Int), some hid) ∧
      (insertSeq creator st keys).2.creations = st.creations := by
  intro keys
  induction keys with
  | nil => intro st sc _ _ _; exact ⟨rfl, rfl⟩
  | cons k0 ks ih =>
    intro st sc hall hseek hsock
    have hk0 : k0 = key := hall k0 (List.mem_cons_self _ _)
    subst hk0
    have hseek' : mapSeek (SocketMap.Insert creator st k0).state.map
        (SocketMapKeyChecksum.ofKey k0) =
        some { sc with ref_count := sc.ref_count + 1, no_ref_us := none } := by
      rw [insert_found_eq hseek]
      show mapSeek (mapUpdate st.map (SocketMapKeyChecksum.ofKey k0)
        (fun s => { s with ref_count := s.ref_count + 1, no_ref_us := none }))
        (SocketMapKeyChecksum.ofKey k0) = _
      rw [mapSeek_update, hseek]
      rfl
    obtain ⟨h1, h2⟩ := ih (SocketMap.Insert creator st k0).state
      { sc with ref_count := sc.ref_count + 1, no_ref_us := none }
      (fun k hk => hall k (List.mem_cons_of_mem _ hk)) hseek' hsock
    constructor
    · simp only [insertSeq]
      rw [h1, insert_found_eq hseek, List.length_cons, List.replicate_succ, hsock]
    · simp only [insertSeq]
      rw [h2, insert_found_eq hseek]

/-- C1: when N callers insert identities that are all equal and no entry yet
exists, the mutex-serialized execution of their Insert calls invokes the
creation strategy exactly once and every caller receives code 0 with the one
created connection handle. -/
theorem insert_exactly_once (creator : Nat → Option SocketId) (st : SocketMapState)
    (key : SocketMapKey) (keys : List SocketMapKey) (hid : SocketId)
    (hall : ∀ k ∈ keys, k = key)
    (habsent : mapSeek st.map (SocketMapKeyChecksum.ofKey key) = none)
    (hcreate : creator st.creations = some hid) :
    (insertSeq creator st (key :: keys)).1 =
      List.replicate (keys.length + 1) ((0 : Int), some hid) ∧
    (insertSeq creator st (key :: keys)).2.creations = st.creations + 1 := by
  have hseek1 : mapSeek (SocketMap.Insert creator st key).state.map
      (SocketMapKeyChecksum.ofKey key) =
      some { ref_count := 1, socket := hid, no_ref_us := none } := by
    rw [insert_create_eq habsent hcreate]
    show mapSeek ((SocketMapKeyChecksum.ofKey key,
        ({ ref_count := 1, socket := hid, no_ref_us := none } : SingleConnection))
        :: st.map) (SocketMapKeyChecksum.ofKey key) = _
    rw [mapSeek_cons, if_pos (ckBeq_refl _)]
  obtain ⟨h1, h2⟩ := insertSeq_found creator key hid keys
    (SocketMap.Insert creator st key).state
    { ref_count := 1, socket := hid, no_ref_us := none } hall hseek1 rfl
  constructor
  · simp only [insertSeq]
    rw [h1, insert_create_eq habsent hcreate, List.replicate_succ]
  · simp only [insertSeq]
    rw [h2, insert_create_eq habsent hcreate]

/-- C2: Insert on an identity already present increments that entry's
reference count, clears its idle timestamp, returns the existing handle with
code 0, and creates no new connection (creation count and closed list are
untouched). -/
theorem insert_found_shares (creator : Nat → Option SocketId) (st : SocketMapState)
    (key : SocketMapKey) (sc : SingleConnection)
    (hseek : mapSeek st.map (SocketMapKeyChecksum.ofKey key) = some sc) :
    (SocketMap.Insert creator st key).retcode = 0 ∧
    (SocketMap.Insert creator st key).id = some sc.socket ∧
    (SocketMap.Insert creator st key).state.creations = st.creations ∧
    (SocketMap.Insert creator st key).state.closed = st.closed ∧
    mapSeek (SocketMap.Insert creator st key).state.map
        (SocketMapKeyChecksum.ofKey key) =
      some { ref_count := sc.ref_count + 1, socket := sc.socket, no_ref_us := none } := by
  rw [insert_found_eq hseek]
  refine ⟨rfl, rfl, rfl, rfl, ?_⟩
  show mapSeek (mapUpdate st.map (SocketMapKeyChecksum.ofKey key)
      (fun s => { s with ref_count := s.ref_count + 1, no_ref_us := none }))
      (SocketMapKeyChecksum.ofKey key) = _
  rw [mapSeek_update, hseek]
  rfl

/-- C3: Remove with the matching expected handle decrements the entry's
reference count; when the count reaches zero the entry stays in the registry
with the current time as its idle timestamp and nothing is closed, unless the
defer-close threshold is non-positive, in which case the connection is closed
at once and the entry erased. -/
theorem remove_matching_decrements (deferClose now : Int) (st : SocketMapState)
    (key : SocketMapKey) (sc : SingleConnection)
    (hseek : mapSeek st.map (SocketMapKeyChecksum.ofKey key) = some sc) :
    (¬ sc.ref_count - 1 = 0 →
      mapSeek (SocketMap.Remove deferClose now st key sc.socket).map
          (SocketMapKeyChecksum.ofKey key) =
        some { sc with ref_count := sc.ref_count - 1 } ∧
      (SocketMap.Remove deferClose now st key sc.socket).closed = st.closed) ∧
    (sc.ref_count - 1 = 0 → 0 < deferClose →
      mapSeek (SocketMap.Remove deferClose now st key sc.socket).map
          (SocketMapKeyChecksum.ofKey key) =
        some { ref_count := sc.ref_count - 1, socket := sc.socket,
               no_ref_us := some now } ∧
      (SocketMap.Remove deferClose now st key sc.socket).closed = st.closed) ∧
    (sc.ref_count - 1 = 0 → deferClose ≤ 0 →
      mapSeek (SocketMap.Remove deferClose now st key sc.socket).map
          (SocketMapKeyChecksum.ofKey key) = none ∧
      (SocketMap.Remove deferClose now st key sc.socket).closed =
        sc.socket :: st.closed) := by
  unfold SocketMap.Remove
  rw [removeInternal_eq deferClose now sc.socket hseek, if_pos rfl]
  refine ⟨?_, ?_, ?_⟩
  · intro hnz
    rw [if_neg hnz]
    refine ⟨?_, rfl⟩
    show mapSeek (mapUpdate st.map (SocketMapKeyChecksum.ofKey key)
        (fun s => { s with ref_count := s.ref_count - 1 }))
        (SocketMapKeyChecksum.ofKey key) = _
    rw [mapSeek_update, hseek]
    rfl
  · intro hz hd
    rw [if_pos hz, if_neg (by omega)]
    refine ⟨?_, rfl⟩
    show mapSeek (mapUpdate st.map (SocketMapKeyChecksum.ofKey key)
        (fun s => { s with ref_count := s.ref_count - 1, no_ref_us := some now }))
        (SocketMapKeyChecksum.ofKey key) = _
    rw [mapSeek_update, hseek]
    rfl
  · intro hz hd
    rw [if_pos hz, if_pos hd]
    exact ⟨mapSeek_erase_rel (ckBeq_refl _) st.map, rfl⟩

/-- C4: a Remove whose expected handle does not match the handle currently
stored for the identity is a complete no-op: the registry state is returned
unchanged, so nothing is decremented and nothing is erased. -/
theorem remove_stale_noop (deferClose now : Int) (st : SocketMapState)
    (key : SocketMapKey) (expectedId : SocketId) (sc : SingleConnection)
    (hseek : mapSeek st.map (SocketMapKeyChecksum.ofKey key) = some sc)
    (hne : ¬ sc.socket = expectedId) :
    SocketMap.Remove deferClose now st key expectedId = st := by
  unfold SocketMap.Remove
  rw [removeInternal_eq deferClose now expectedId hseek, if_neg hne]

/-- C5: with idle timeout T > 0 and defer-close 0, one sweep cycle erases and
closes every zero-reference entry idle for longer than T and leaves every
zero-reference entry idle for at most T untouched; with T ≤ 0, the cycle
removes nothing. -/
theorem sweep_idle_reclamation (now T : Int) (st : SocketMapState)
    (hu : KeysUnique st.map) :
    (∀ k sc ts, (k, sc) ∈ st.map → sc.ref_count = 0 → sc.no_ref_us = some ts →
      0 < T → T < now - ts →
      mapSeek (SocketMap.WatchConnectionsCycle now T 0 st).map k = none ∧
      sc.socket ∈ (SocketMap.WatchConnectionsCycle now T 0 st).closed) ∧
    (∀ k sc ts, (k, sc) ∈ st.map → sc.ref_count = 0 → sc.no_ref_us = some ts →
      now - ts ≤ T →
      mapSeek (SocketMap.WatchConnectionsCycle now T 0 st).map k = some sc) ∧
    (T ≤ 0 → (SocketMap.WatchConnectionsCycle now T 0 st).map = st.map) := by
  refine ⟨?_, ?_, ?_⟩
  · intro k sc ts hmem href hns hT hidle
    have hT' : ¬ T ≤ 0 := by omega
    have helig : orphanEligible now T 0 sc = true := by
      simp only [orphanEligible, href, hns, decide_eq_true_eq, Bool.and_eq_true,
        Bool.or_eq_true]
      exact ⟨trivial, by omega, Or.inl le_rfl⟩
    have hcand : k ∈ SocketMap.ListOrphans now T 0 st.map := by
      simp only [SocketMap.ListOrphans]
      rw [if_neg hT']
      exact List.mem_map.mpr ⟨(k, sc), List.mem_filter.mpr ⟨hmem, helig⟩, rfl⟩
    simp only [SocketMap.WatchConnectionsCycle]
    exact closeCands_erases _ st k sc hcand (mapSeek_of_mem_unique hu hmem) href
  · intro k sc ts hmem href hns hle
    have hseek := mapSeek_of_mem_unique hu hmem
    simp only [SocketMap.WatchConnectionsCycle]
    by_cases hT : T ≤ 0
    · simp only [SocketMap.ListOrphans]
      rw [if_pos hT]
      exact hseek
    · have hunrel : ∀ c ∈ SocketMap.ListOrphans now T 0 st.map,
          SocketMapKeyChecksum.beq c k = false := by
        intro c hc
        simp only [SocketMap.ListOrphans] at hc
        rw [if_neg hT] at hc
        obtain ⟨e, hef, he1⟩ := List.mem_map.mp hc
        have he1' : e.1 = c := he1
        obtain ⟨hem, heligE⟩ := List.mem_filter.mp hef
        have heligE' : orphanEligible now T 0 e.2 = true := heligE
        by_contra hx
        have hx' : SocketMapKeyChecksum.beq c k = true := ckBeq_true_of_ne_false hx
        have hem' : (c, e.2) ∈ st.map := by
          rw [← he1', Prod.mk.eta]
          exact hem
        have hval : e.2 = sc := mem_value_unique hu hem' hmem hx'
        rw [hval] at heligE'
        simp only [orphanEligible, href, hns, decide_eq_true_eq, Bool.and_eq_true,
          Bool.or_eq_true] at heligE'
        obtain ⟨-, h2, -⟩ := heligE'
        omega
      rw [closeCands_seek_unrelated (SocketMap.ListOrphans now T 0 st.map) st k hunrel]
      exact hseek
  · intro hT
    simp only [SocketMap.WatchConnectionsCycle, SocketMap.ListOrphans]
    rw [if_pos hT]
    rfl

/-- C6: the destruction phase of the sweeper never destroys an entry reused
since the snapshot: whatever the snapshotted candidate list, an entry whose
reference count is no longer zero survives with its stored state intact. -/
theorem sweeper_skips_reused (cands : List SocketMapKeyChecksum) :
    ∀ (st : SocketMapState) (k : SocketMapKeyChecksum) (sc : SingleConnection),
      mapSeek st.map k = some sc → ¬ sc.ref_count = 0 →
      mapSeek (SocketMap.CloseCandidates cands st).map k = some sc := by
  induction cands with
  | nil => intro st k sc hseek _; exact hseek
  | cons c rest ih =>
    intro st k sc hseek href
    simp only [SocketMap.CloseCandidates]
    cases hc : mapSeek st.map c with
    | none =>
      rw [closeOne_none hc]
      exact ih st k sc hseek href
    | some sc' =>
      by_cases hr : sc'.ref_count = 0
      · have hrel : SocketMapKeyChecksum.beq c k = false := by
          by_contra hx
          have hx' : SocketMapKeyChecksum.beq c k = true := ckBeq_true_of_ne_false hx
          have h2 := mapSeek_respects hx' st.map
          rw [hc, hseek] at h2
          refine href ?_
          rw [← Option.some.inj h2]
          exact hr
        rw [closeOne_zero hc hr]
        apply ih
        · show mapSeek (mapErase st.map c) k = some sc
          rw [mapSeek_erase_ne hrel st.map]
          exact hseek
        · exact href
      · rw [closeOne_nonzero hc hr]
        exact ih st k sc hseek href

/-- C7: when the creation strategy fails for a not-yet-registered identity,
Insert returns -1, produces no handle, and leaves the registry (map and closed
list) unchanged. -/
theorem insert_creation_failure (creator : Nat → Option SocketId)
    (st : SocketMapState) (key : SocketMapKey)
    (habsent : mapSeek st.map (SocketMapKeyChecksum.ofKey key) = none)
    (hfail : creator st.creations = none) :
    (SocketMap.Insert creator st key).retcode = -1 ∧
    (SocketMap.Insert creator st key).id = none ∧
    (SocketMap.Insert creator st key).state.map = st.map ∧
    (SocketMap.Insert creator st key).state.closed = st.closed := by
  rw [insert_fail_eq habsent hfail]
  exact ⟨rfl, rfl, rfl, rfl⟩

/-- C8: Find is a pure lookup: it returns the stored handle with code 0 when
an entry exists for the identity's checksum, returns -1 with no handle
otherwise, and in both cases leaves the registry state unchanged. -/
theorem find_pure_lookup (st : SocketMapState) (key : SocketMapKey) :
    (SocketMap.Find st key).2.2 = st ∧
    (∀ sc, mapSeek st.map (SocketMapKeyChecksum.ofKey key) = some sc →
      (SocketMap.Find st key).1 = 0 ∧
      (SocketMap.Find st key).2.1 = some sc.socket) ∧
    (mapSeek st.map (SocketMapKeyChecksum.ofKey key) = none →
      (SocketMap.Find st key).1 = -1 ∧ (SocketMap.Find st key).2.1 = none) := by
  unfold SocketMap.Find
  cases hc : mapSeek st.map (SocketMapKeyChecksum.ofKey key) with
  | some sc =>
    refine ⟨rfl, ?_, ?_⟩
    · intro sc' h
      obtain rfl := Option.some.inj h
      exact ⟨rfl, rfl⟩
    · intro h
      exact Option.noConfusion h
  | none =>
    refine ⟨rfl, ?_, fun _ => ⟨rfl, rfl⟩⟩
    intro sc' h
    exact Option.noConfusion h

/-- C9: two key checksums compare equal under operator== exactly when the peer
addresses are equal and all 16 digest bytes agree (no partial-match
semantics), and the checksum construction is deterministic: equal identities
always yield equal checksums. -/
theorem checksum_eq_iff :
    (∀ a b : SocketMapKeyChecksum,
      SocketMapKeyChecksum.beq a b = true ↔
        (a.peer = b.peer ∧ ∀ i : Fin 16, a.checksum i = b.checksum i)) ∧
    (∀ k1 k2 : SocketMapKey, k1 = k2 →
      SocketMapKeyChecksum.ofKey k1 = SocketMapKeyChecksum.ofKey k2) :=
  ⟨ckBeq_iff, fun _ _ h => congrArg SocketMapKeyChecksum.ofKey h⟩

/-- C10: Checksum2Hash only reads a prefix of the digest bytes that operator==
already forces to agree, so checksums comparing equal always hash alike — the
hash/equality coherence the FlatMap relies on. -/
theorem hash_respects_eq (a b : SocketMapKeyChecksum)
    (hab : SocketMapKeyChecksum.beq a b = true) :
    Checksum2Hash a = Checksum2Hash b := by
  obtain ⟨-, hbytes⟩ := (ckBeq_iff a b).mp hab
  have hck : a.checksum = b.checksum := funext hbytes
  unfold Checksum2Hash
  rw [hck]

/-- Witness for C1: two serialized inserts of the same fresh identity create
one socket and both callers get handle 42. -/
theorem insert_exactly_once_witness :
    (insertSeq (fun _ => some 42) { map := [], creations := 0, closed := [] }
        [⟨⟨1, 2⟩, 3, none⟩, ⟨⟨1, 2⟩, 3, none⟩]).1 =
      List.replicate 2 ((0 : Int), some 42) ∧
    (insertSeq (fun _ => some 42) { map := [], creations := 0, closed := [] }
        [⟨⟨1, 2⟩, 3, none⟩, ⟨⟨1, 2⟩, 3, none⟩]).2.creations = 0 + 1 :=
  insert_exactly_once (fun _ => some 42) { map := [], creations := 0, closed := [] }
    ⟨⟨1, 2⟩, 3, none⟩ [⟨⟨1, 2⟩, 3, none⟩] 42
    (fun _ hk => List.mem_singleton.mp hk) rfl rfl

/-- Witness for C2: inserting an already-registered identity returns 0. -/
theorem insert_found_shares_witness :
    (SocketMap.Insert (fun _ => none)
        { map := [(SocketMapKeyChecksum.ofKey ⟨⟨1, 2⟩, 3, none⟩,
                   { ref_count := 1, socket := 7, no_ref_us := some 5 })],
          creations := 0, closed := [] } ⟨⟨1, 2⟩, 3, none⟩).retcode = 0 :=
  (insert_found_shares (fun _ => none)
    { map := [(SocketMapKeyChecksum.ofKey ⟨⟨1, 2⟩, 3, none⟩,
               { ref_count := 1, socket := 7, no_ref_us := some 5 })],
      creations := 0, closed := [] } ⟨⟨1, 2⟩, 3, none⟩
    { ref_count := 1, socket := 7, no_ref_us := some 5 } rfl).1

/-- Witness for C3: a matching Remove that takes the count to zero with
defer-close 5 stamps the idle time 50 and keeps the entry. -/
theorem remove_matching_decrements_witness :
    mapSeek (SocketMap.Remove 5 50
        { map := [(SocketMapKeyChecksum.ofKey ⟨⟨1, 2⟩, 3, none⟩,
                   { ref_count := 1, socket := 7, no_ref_us := none })],
          creations := 0, closed := [] } ⟨⟨1, 2⟩, 3, none⟩ 7).map
      (SocketMapKeyChecksum.ofKey ⟨⟨1, 2⟩, 3, none⟩) =
      some { ref_count := 0, socket := 7, no_ref_us := some 50 } :=
  ((remove_matching_decrements 5 50
      { map := [(SocketMapKeyChecksum.ofKey ⟨⟨1, 2⟩, 3, none⟩,
                 { ref_count := 1, socket := 7, no_ref_us := none })],
        creations := 0, closed := [] } ⟨⟨1, 2⟩, 3, none⟩
      { ref_count := 1, socket := 7, no_ref_us := none } rfl).2.1 rfl
    (by decide)).1

/-- Witness for C4: a Remove with a stale expected handle (8 instead of 7)
returns the registry unchanged. -/
theorem remove_stale_noop_witness :
    SocketMap.Remove 0 0
        { map := [(SocketMapKeyChecksum.ofKey ⟨⟨1, 2⟩, 3, none⟩,
                   { ref_count := 1, socket := 7, no_ref_us := none })],
          creations := 0, closed := [] } ⟨⟨1, 2⟩, 3, none⟩ 8 =
      { map := [(SocketMapKeyChecksum.ofKey ⟨⟨1, 2⟩, 3, none⟩,
                 { ref_count := 1, socket := 7, no_ref_us := none })],
        creations := 0, closed := [] } :=
  remove_stale_noop 0 0
    { map := [(SocketMapKeyChecksum.ofKey ⟨⟨1, 2⟩, 3, none⟩,
               { ref_count := 1, socket := 7, no_ref_us := none })],
      creations := 0, closed := [] } ⟨⟨1, 2⟩, 3, none⟩ 8
    { ref_count := 1, socket := 7, no_ref_us := none } rfl (by decide)

/-- Witness for C5: at time 100 with timeout 10, the sweep erases the entry
idle since 0 and keeps the entry idle since 95. -/
theorem sweep_idle_reclamation_witness :
    mapSeek (SocketMap.WatchConnectionsCycle 100 10 0
        { map := [(⟨⟨1, 1⟩, fun _ => 0⟩,
                   { ref_count := 0, socket := 7, no_ref_us := some 0 }),
                  (⟨⟨2, 2⟩, fun _ => 0⟩,
                   { ref_count := 0, socket := 9, no_ref_us := some 95 })],
          creations := 0, closed := [] }).map ⟨⟨1, 1⟩, fun _ => 0⟩ = none ∧
    mapSeek (SocketMap.WatchConnectionsCycle 100 10 0
        { map := [(⟨⟨1, 1⟩, fun _ => 0⟩,
                   { ref_count := 0, socket := 7, no_ref_us := some 0 }),
                  (⟨⟨2, 2⟩, fun _ => 0⟩,
                   { ref_count := 0, socket := 9, no_ref_us := some 95 })],
          creations := 0, closed := [] }).map ⟨⟨2, 2⟩, fun _ => 0⟩ =
      some { ref_count := 0, socket := 9, no_ref_us := some 95 } := by
  have h := sweep_idle_reclamation 100 10
    { map := [(⟨⟨1, 1⟩, fun _ => 0⟩,
               { ref_count := 0, socket := 7, no_ref_us := some 0 }),
              (⟨⟨2, 2⟩, fun _ => 0⟩,
               { ref_count := 0, socket := 9, no_ref_us := some 95 })],
      creations := 0, closed := [] } (by decide)
  refine ⟨(h.1 ⟨⟨1, 1⟩, fun _ => 0⟩
      { ref_count := 0, socket := 7, no_ref_us := some 0 } 0
      (List.mem_cons_self _ _) rfl rfl (by decide) (by decide)).1, ?_⟩
  exact h.2.1 ⟨⟨2, 2⟩, fun _ => 0⟩
    { ref_count := 0, socket := 9, no_ref_us := some 95 } 95
    (List.mem_cons_of_mem _ (List.mem_cons_self _ _)) rfl rfl (by decide)

/-- Witness for C6: a snapshotted candidate whose count rose to 2 before the
destruction phase survives the sweep with its state intact. -/
theorem sweeper_skips_reused_witness :
    mapSeek (SocketMap.CloseCandidates [⟨⟨1, 1⟩, fun _ => 0⟩]
        { map := [(⟨⟨1, 1⟩, fun _ => 0⟩,
                   { ref_count := 2, socket := 7, no_ref_us := none })],
          creations := 0, closed := [] }).map ⟨⟨1, 1⟩, fun _ => 0⟩ =
      some { ref_count := 2, socket := 7, no_ref_us := none } :=
  sweeper_skips_reused [⟨⟨1, 1⟩, fun _ => 0⟩]
    { map := [(⟨⟨1, 1⟩, fun _ => 0⟩,
               { ref_count := 2, socket := 7, no_ref_us := none })],
      creations := 0, closed := [] } ⟨⟨1, 1⟩, fun _ => 0⟩
    { ref_count := 2, socket := 7, no_ref_us := none } rfl (by decide)

/-- Witness for C7: a failing creator on an empty registry yields -1. -/
theorem insert_creation_failure_witness :
    (SocketMap.Insert (fun _ => none) { map := [], creations := 0, closed := [] }
        ⟨⟨1, 2⟩, 3, none⟩).retcode = -1 :=
  (insert_creation_failure (fun _ => none)
    { map := [], creations := 0, closed := [] } ⟨⟨1, 2⟩, 3, none⟩ rfl rfl).1

/-- Witness for C8: Find on an empty registry hands the registry back
unchanged. -/
theorem find_pure_lookup_witness :
    (SocketMap.Find { map := [], creations := 0, closed := [] }
        ⟨⟨1, 2⟩, 3, none⟩).2.2 = { map := [], creations := 0, closed := [] } :=
  (find_pure_lookup { map := [], creations := 0, closed := [] }
    ⟨⟨1, 2⟩, 3, none⟩).1

/-- Witness for C10: two checksums with the same peer and bytes hash alike. -/
theorem hash_respects_eq_witness :
    Checksum2Hash ⟨⟨1, 2⟩, fun _ => 3⟩ = Checksum2Hash ⟨⟨1, 2⟩, fun _ => 3⟩ :=
  hash_respects_eq ⟨⟨1, 2⟩, fun _ => 3⟩ ⟨⟨1, 2⟩, fun _ => 3⟩ (by decide)

end brpc
